import Mathlib

/-!
Shallow embedding of `pyss/testing.py`: the `StateChartTester` harness and the
`TesterConfiguration` builder, together with models of the external execution
engine (`pyss.simulator.Simulator`, `pyss.model`), which is a collaborator of
this module and is specified only through its consumed interface.

Conventions of the embedding:
* Python objects become Lean structures; in-place mutation becomes explicit
  state passing (a method that mutates `self` returns the updated value).
* A raised exception becomes an `Option` error component of the result: `none`
  means normal return, `some e` means the exception `e` propagated.  Engine
  state reached before the raise is kept in the returned state, mirroring the
  fact that Python exceptions do not roll back mutations.
* The enriched assertion message built by `_execute_tester` is represented as a
  structured record carrying exactly the values interpolated into the Python
  format string.
-/

namespace PyssTesting

/-- Python `model.Event`: a named signal.  `testing.py` only ever reads the name of an
event, so only the name is modelled. -/
structure Event where
  name : String
deriving DecidableEq

/-- Modelled from the spec: the transition recorded in a step (simulator
module, absent from src/).  `testing.py` reads `transition.event.name`, where
the transition itself and its triggering event may each be absent. -/
structure Transition where
  event : Option Event
deriving DecidableEq

/-- Modelled from the spec: `simulator.MacroStep` (absent from src/), one unit
of progress of the subject: the consumed event (optional), the fired
transition (optional), and the ordered lists of entered and exited state
names. -/
structure MacroStep where
  event : Option Event
  transition : Option Transition
  entered_states : List String
  exited_states : List String
deriving DecidableEq

/-- Modelled from the spec: one future step of a terminating engine run,
together with the engine's configuration and evaluation context once that step
has been executed.  A terminating run of the engine is a finite script of such
entries. -/
structure ScriptEntry (V : Type) where
  step : MacroStep
  config : List String
  evalCtx : List (String × V)
deriving DecidableEq

/-- Modelled from the spec: the subject-side execution engine
(`simulator.Simulator`, absent from src/), restricted to the interface
`testing.py` consumes: `send` enqueues an event without executing it,
`execute_once` performs one unit of progress or reports none,
`configuration` is the set of active state names, `evaluator.context` is the
live evaluation context, and `_statechart.name` names the statechart.  The
engine's future behaviour is a predetermined finite script of steps, which
covers every terminating run. `V` is the (opaque) type of engine context
values. -/
structure Simulator (V : Type) where
  name : String
  queue : List Event
  config : List String
  evalContext : List (String × V)
  pending : List (ScriptEntry V)

/-- Method `send(event)`: enqueue an event; it is not executed by this call. -/
def Simulator.send {V : Type} (s : Simulator V) (e : Event) : Simulator V :=
  { s with queue := s.queue ++ [e] }

/-- Method `execute_once()`: pop the next scripted step (updating configuration and
evaluation context), or report `none` when the run is over. -/
def Simulator.execute_once {V : Type} (s : Simulator V) :
    Option MacroStep × Simulator V :=
  match s.pending with
  | [] => (none, s)
  | entry :: rest =>
      (some entry.step,
       { s with config := entry.config, evalContext := entry.evalCtx, pending := rest })

/-- A value stored in a tester's evaluation-context dictionary.  The harness
writes Boolean predicate closures and the subject's context mapping into it;
the tester's own entries are opaque engine values. -/
inductive CtxVal (V : Type) where
  | strPred : (String → Bool) → CtxVal V
  | optStrPred : (Option String → Bool) → CtxVal V
  | dict : List (String × V) → CtxVal V
  | engine : V → CtxVal V

/-- Modelled from the spec: a tester-side execution engine
(`simulator.Simulator` running a test statechart, absent from src/),
restricted to the interface `testing.py` consumes: `send`, `execute()` (which
may raise an `AssertionError` carrying a payload), `evaluator._context`,
`configuration`, `running` and `_statechart.name`.  `received` records every
event delivered through `send`, in order.  The engine's reaction is an
arbitrary function `exec` of the tester's observable state; it returns the new
(context, configuration, running) triple together with the payload of a raised
`AssertionError`, if any. -/
structure Tester (V : Type) where
  name : String
  received : List Event
  ctx : List (String × CtxVal V)
  config : List String
  running : Bool
  exec : List Event → List (String × CtxVal V) → List String → Bool →
    (List (String × CtxVal V) × List String × Bool) × Option String

/-- Method `send(event)` on a tester engine: record the delivery. -/
def Tester.send {V : Type} (t : Tester V) (e : Event) : Tester V :=
  { t with received := t.received ++ [e] }

/-- Method `execute()` on a tester engine: run the engine's reaction; the second
component is the payload of a raised `AssertionError`, if any. -/
def Tester.execute {V : Type} (t : Tester V) : Tester V × Option String :=
  ({ t with ctx := (t.exec t.received t.ctx t.config t.running).1.1
            config := (t.exec t.received t.ctx t.config t.running).1.2.1
            running := (t.exec t.received t.ctx t.config t.running).1.2.2 },
   (t.exec t.received t.ctx t.config t.running).2)

/-- The dictionary returned by `StateChartTester._create_context`, with its six
fixed keys.  `entered`/`exited`/`processed`/`consumed` are closures over the
(optional) step; `active` and `context` are snapshots of the subject's
configuration and evaluation context at construction time (the subject does
not advance between context construction and its use, so the snapshot agrees
with the live Python closure). -/
structure ObservationContext (V : Type) where
  entered : String → Bool
  exited : String → Bool
  active : String → Bool
  processed : Option String → Bool
  consumed : Option String → Bool
  context : List (String × V)

/-- Method `StateChartTester._create_context(step)` (testing.py lines 31-57).  The
`try/except AttributeError` chains around `step.transition.event.name` and
`step.event.name` become `Option.bind` chains; `getattr(step, ..., [])`
becomes a match on the optional step. -/
def _create_context {V : Type} (sim : Simulator V) (step : Option MacroStep) :
    ObservationContext V :=
  let processed_event_name :=
    ((step.bind fun st => st.transition).bind fun tr => tr.event).map fun e => e.name
  let consumed_event_name :=
    (step.bind fun st => st.event).map fun e => e.name
  { entered := fun s =>
      (match step with
       | some st => st.entered_states
       | none => []).contains s
    exited := fun s =>
      (match step with
       | some st => st.exited_states
       | none => []).contains s
    active := fun s => sim.config.contains s
    processed := fun e => processed_event_name == e
    consumed := fun e => consumed_event_name == e
    context := sim.evalContext }

/-- Setting one key of a Python dictionary: replace in place if present,
append otherwise. -/
def setKey {V : Type} (ctx : List (String × CtxVal V)) (k : String) (v : CtxVal V) :
    List (String × CtxVal V) :=
  match ctx with
  | [] => [(k, v)]
  | (k1, v1) :: rest => if k1 = k then (k, v) :: rest else (k1, v1) :: setKey rest k v

/-- The items of the context dictionary, in the insertion order of the dict
literal in `_create_context`. -/
def contextItems {V : Type} (c : ObservationContext V) : List (String × CtxVal V) :=
  [("entered", CtxVal.strPred c.entered),
   ("exited", CtxVal.strPred c.exited),
   ("active", CtxVal.strPred c.active),
   ("processed", CtxVal.optStrPred c.processed),
   ("consumed", CtxVal.optStrPred c.consumed),
   ("context", CtxVal.dict c.context)]

/-- The overlay loop `for key, value in context.items():
tester.evaluator._context[key] = value`. -/
def overlayCtx {V : Type} (tctx : List (String × CtxVal V)) (c : ObservationContext V) :
    List (String × CtxVal V) :=
  (contextItems c).foldl (fun acc kv => setKey acc kv.1 kv.2) tctx

/-- The enriched `AssertionError` raised by `_execute_tester`, as a structured
record of exactly the values interpolated into the Python message: the
subject's statechart name, the failing tester's statechart name, the original
exception payload, the failing tester's configuration, the subject's
configuration, and the originating step (or `none` for a start/stop relay). -/
structure EnrichedAssertionError where
  simulatorName : String
  testerName : String
  exceptionArgs : String
  testerConfiguration : List String
  simulatorConfiguration : List String
  step : Option MacroStep
deriving DecidableEq

/-- An exception escaping a harness method: either an enriched tester
assertion failure, or the finality assertion of `stop()` (carrying the stuck
tester's statechart name and configuration). -/
inductive HarnessError where
  | assertion : EnrichedAssertionError → HarnessError
  | finality : String → List String → HarnessError
deriving DecidableEq

/-- The body of the `for tester in self._testers` loop of `_execute_tester`
for one tester: send the synthetic event, overlay the context, execute. -/
def relayOne {V : Type} (event : Event) (context : ObservationContext V) (t : Tester V) :
    Tester V × Option String :=
  let t1 := Tester.send t event
  let t2 := { t1 with ctx := overlayCtx t1.ctx context }
  Tester.execute t2

/-- Method `StateChartTester._execute_tester(step, event, context)` (testing.py lines
59-78), acting on the tester list: each tester in order is sent the event,
overlaid with the context and executed; an `AssertionError` is caught,
enriched and re-raised, aborting the loop (testers after the failing one are
left untouched). -/
def _execute_tester {V : Type} (sim : Simulator V) (step : Option MacroStep)
    (event : Event) (context : ObservationContext V) :
    List (Tester V) → List (Tester V) × Option EnrichedAssertionError
  | [] => ([], none)
  | t :: rest =>
    match relayOne event context t with
    | (t1, some payload) =>
        (t1 :: rest,
         some { simulatorName := sim.name
                testerName := t1.name
                exceptionArgs := payload
                testerConfiguration := t1.config
                simulatorConfiguration := sim.config
                step := step })
    | (t1, none) =>
        match _execute_tester sim step event context rest with
        | (rest1, err) => (t1 :: rest1, err)

/-- The `StateChartTester` harness object: the subject simulator, the list of
tester engines, and the scenario events. -/
structure StateChartTester (V : Type) where
  _simulator : Simulator V
  _testers : List (Tester V)
  _events : List Event

/-- Constructor `StateChartTester.__init__(simulator, testers, events)` (testing.py lines
9-29): build a start-context (no step), relay a synthetic `start` event to
every tester, then send every scenario event to the subject.  If the start
relay raises, the exception propagates and the scenario events are never
sent. -/
def StateChartTester.init {V : Type} (simulator : Simulator V) (testers : List (Tester V))
    (events : List Event) : StateChartTester V × Option EnrichedAssertionError :=
  let event : Event := Event.mk "start"
  let context := _create_context simulator none
  match _execute_tester simulator none event context testers with
  | (testers1, some e) =>
      ({ _simulator := simulator, _testers := testers1, _events := events }, some e)
  | (testers1, none) =>
      ({ _simulator := events.foldl Simulator.send simulator,
         _testers := testers1, _events := events }, none)

/-- The `for tester in self._testers` loop of `stop()` (testing.py lines
89-91), iterating with index `k` over the (fixed-length) tester list and
`fuel` remaining iterations: each iteration calls `_execute_tester` — which
relays the `stop` event to every tester — and then asserts that the `k`-th
tester is not running.  Any raised exception aborts the loop. -/
def stopAux {V : Type} (sim : Simulator V) (event : Event) (context : ObservationContext V) :
    List (Tester V) → Nat → Nat → List (Tester V) × Option HarnessError
  | ts, _, 0 => (ts, none)
  | ts, k, fuel + 1 =>
    match _execute_tester sim none event context ts with
    | (ts1, some e) => (ts1, some (HarnessError.assertion e))
    | (ts1, none) =>
      match ts1[k]? with
      | none => (ts1, none)
      | some t =>
          if t.running then (ts1, some (HarnessError.finality t.name t.config))
          else stopAux sim event context ts1 (k + 1) fuel

/-- Method `StateChartTester.stop()` (testing.py lines 80-91): build a stop-context
(no step) once, then run the per-tester loop; the loop has exactly one
iteration per tester of `self._testers`. -/
def StateChartTester.stop {V : Type} (h : StateChartTester V) :
    StateChartTester V × Option HarnessError :=
  let event : Event := Event.mk "stop"
  let context := _create_context h._simulator none
  let r := stopAux h._simulator event context h._testers 0 h._testers.length
  ({ h with _testers := r.1 }, r.2)

/-- Method `StateChartTester.execute_once()` (testing.py lines 93-113): advance the
subject by one step; if it produced a step, relay it to the testers as a
`step` event with a context built from that step (and the subject's post-step
state); otherwise call `stop()`.  The first component is the returned step
(`none` both at termination and when an exception propagates). -/
def StateChartTester.execute_once {V : Type} (h : StateChartTester V) :
    Option MacroStep × StateChartTester V × Option HarnessError :=
  match Simulator.execute_once h._simulator with
  | (some step, sim1) =>
    let event : Event := Event.mk "step"
    let context := _create_context sim1 (some step)
    match _execute_tester sim1 (some step) event context h._testers with
    | (testers1, some e) =>
        (none, { h with _simulator := sim1, _testers := testers1 },
         some (HarnessError.assertion e))
    | (testers1, none) =>
        (some step, { h with _simulator := sim1, _testers := testers1 }, none)
  | (none, sim1) =>
    let h1 : StateChartTester V := { h with _simulator := sim1 }
    let r := StateChartTester.stop h1
    (none, r.1, r.2)

/-- The `while step:` loop of `execute` (testing.py lines 125-134), with the
step counter `i` and an explicit fuel (one unit per `execute_once` call; any
fuel exceeding the subject's script length is sufficient).  After collecting a
step the loop breaks when `max_steps > 0 and i == max_steps` (with `i` the
count of collected steps); a propagating exception discards the collected
steps, as a Python `raise` would. -/
def executeAux {V : Type} : Nat → StateChartTester V → Int → Int →
    List MacroStep × StateChartTester V × Option HarnessError
  | 0, h, _, _ => ([], h, none)
  | fuel + 1, h, max_steps, i =>
    match StateChartTester.execute_once h with
    | (_, h1, some e) => ([], h1, some e)
    | (none, h1, none) => ([], h1, none)
    | (some st, h1, none) =>
      if max_steps > 0 ∧ i + 1 = max_steps then ([st], h1, none)
      else
        match executeAux fuel h1 max_steps (i + 1) with
        | (_, h2, some e) => ([], h2, some e)
        | (rest, h2, none) => (st :: rest, h2, none)

/-- Method `StateChartTester.execute(max_steps)` (testing.py lines 115-134):
repeatedly call `execute_once`, collecting every non-`None` step; the default
`max_steps` of the source is `-1` (no limit).  The fuel
`pending.length + 1` covers the longest possible run of the loop. -/
def StateChartTester.execute {V : Type} (h : StateChartTester V) (max_steps : Int) :
    List MacroStep × StateChartTester V × Option HarnessError :=
  executeAux (h._simulator.pending.length + 1) h max_steps 0

/-- Python `model.StateChart` as `testing.py` consumes it: a named statechart
definition. -/
structure StateChart where
  name : String
deriving DecidableEq

/-- A constructed engine instance, identified by the allocation id drawn when
it was created (object identity), together with the descriptor it was built
from.  Modelled from the spec: per the engine-construction contract, the
engine factory (or the default `Simulator` constructor) returns a fresh, ready
engine instance, so every construction draws a fresh id. -/
structure SimRef where
  id : Nat
  statechart : StateChart
  evaluator : Option String
  simulator_class : Option Nat
deriving DecidableEq

/-- Class `TesterConfiguration` (testing.py lines 137-165): the subject descriptor
and the ordered list of tester descriptors (`_statechart_tests`).  Evaluators
and simulator classes are opaque descriptors here. -/
structure TesterConfiguration where
  _statechart : StateChart
  _evaluator : Option String
  _simulator_class : Option Nat
  _statechart_tests : List (StateChart × Option String × Option Nat)
deriving DecidableEq

/-- Constructor `TesterConfiguration.__init__(statechart, evaluator, simulator_class)`:
the test list starts empty. -/
def TesterConfiguration.init (statechart : StateChart) (evaluator : Option String)
    (simulator_class : Option Nat) : TesterConfiguration :=
  { _statechart := statechart, _evaluator := evaluator,
    _simulator_class := simulator_class, _statechart_tests := [] }

/-- Method `TesterConfiguration.add_test` (testing.py lines 155-165): append a tester
descriptor, preserving order. -/
def TesterConfiguration.add_test (cfg : TesterConfiguration) (statechart : StateChart)
    (evaluator : Option String) (simulator_class : Option Nat) : TesterConfiguration :=
  { cfg with _statechart_tests := cfg._statechart_tests ++ [(statechart, evaluator, simulator_class)] }

/-- The `for statechart, evaluator, simulator_class in self._statechart_tests`
loop of `build_tester`: construct one engine per descriptor (via the custom
class if present, else the default `Simulator` constructor), each construction
drawing a fresh allocation id. -/
def buildTesters : List (StateChart × Option String × Option Nat) → Nat → List SimRef × Nat
  | [], a => ([], a)
  | (sc, ev, cls) :: rest, a =>
    let tester : SimRef := { id := a, statechart := sc, evaluator := ev, simulator_class := cls }
    match buildTesters rest (a + 1) with
    | (ts, a1) => (tester :: ts, a1)

/-- The harness value returned by `build_tester`, at the level of engine
identity: the subject engine, the tester engines (in descriptor order) and the
scenario. -/
structure BuiltHarness where
  simulator : SimRef
  testers : List SimRef
  events : List Event
deriving DecidableEq

/-- Method `TesterConfiguration.build_tester(events)` (testing.py lines 167-188) at
the level of engine identity: construct the subject engine from the subject
descriptor, construct one tester engine per tester descriptor in order, and
return the harness built from them together with the scenario.  `alloc` is
the next free allocation id; the configuration itself is returned to make its
(absence of) mutation explicit. -/
def TesterConfiguration.build_tester (cfg : TesterConfiguration) (events : List Event)
    (alloc : Nat) : TesterConfiguration × BuiltHarness × Nat :=
  let simulator : SimRef :=
    { id := alloc, statechart := cfg._statechart, evaluator := cfg._evaluator,
      simulator_class := cfg._simulator_class }
  (cfg,
   { simulator := simulator,
     testers := (buildTesters cfg._statechart_tests (alloc + 1)).1,
     events := events },
   (buildTesters cfg._statechart_tests (alloc + 1)).2)

/-- The engine-instance ids owned by a built harness: the subject's and every
tester's. -/
def harnessIds (h : BuiltHarness) : List Nat :=
  h.simulator.id :: h.testers.map SimRef.id

/-- A tester engine is benign-final when its `execute()` never raises and
always leaves the engine in a non-running (final) configuration.  This is the
model of a test statechart that accepts the whole run. -/
def BenignFinal {V : Type} (t : Tester V) : Prop :=
  ∀ rcv ctx cfg run, (t.exec rcv ctx cfg run).2 = none ∧
    (t.exec rcv ctx cfg run).1.2.2 = false

/-! ### Concrete fixtures used by witnesses and counterexample computations -/

/-- A tester reaction that never raises and always reports a final
configuration. -/
def benignExecNat : List Event → List (String × CtxVal Nat) → List String → Bool →
    (List (String × CtxVal Nat) × List String × Bool) × Option String :=
  fun _ c cfg _ => ((c, cfg, false), none)

/-- A benign-final tester named A. -/
def tA : Tester Nat :=
  { name := "A", received := [], ctx := [], config := ["doneA"], running := false,
    exec := benignExecNat }

/-- A benign-final tester named B. -/
def tB : Tester Nat :=
  { name := "B", received := [], ctx := [], config := ["doneB"], running := false,
    exec := benignExecNat }

/-- A tester whose `execute()` raises an `AssertionError` with payload
`boom` while in configuration `stuck`. -/
def tFail : Tester Nat :=
  { name := "F", received := [], ctx := [], config := ["stuck"], running := true,
    exec := fun _ c _ _ => ((c, ["stuck"], true), some "boom") }

/-- A subject whose run is already over (no pending steps). -/
def simEmpty : Simulator Nat :=
  { name := "subject", queue := [], config := ["s1"], evalContext := [("x", 1)],
    pending := [] }

/-- A sample step: consumes `go`, fires a transition triggered by `go`,
enters `s2`, exits `s1`. -/
def step1 : MacroStep :=
  { event := some (Event.mk "go"), transition := some { event := some (Event.mk "go") },
    entered_states := ["s2"], exited_states := ["s1"] }

/-- A subject with exactly one pending step (`step1`). -/
def sim1 : Simulator Nat :=
  { simEmpty with pending := [{ step := step1, config := ["s2"], evalCtx := [("x", 2)] }] }

/-- One anonymous eventless pending step entering the given state. -/
def mkEntry (s : String) : ScriptEntry Nat :=
  { step := { event := none, transition := none, entered_states := [s], exited_states := [] },
    config := [s], evalCtx := [] }

/-- A subject with five pending steps. -/
def sim5 : Simulator Nat :=
  { simEmpty with pending := [mkEntry "a", mkEntry "b", mkEntry "c", mkEntry "d", mkEntry "e"] }

/-- A harness over the exhausted subject with two benign-final testers. -/
def h0 : StateChartTester Nat := (StateChartTester.init simEmpty [tA, tB] []).1

/-- A harness over the one-step subject with two benign-final testers. -/
def h1two : StateChartTester Nat := (StateChartTester.init sim1 [tA, tB] []).1

/-- A harness over the five-step subject with one benign-final tester. -/
def h5 : StateChartTester Nat := (StateChartTester.init sim5 [tA] []).1

/-- A step entering A and B and exiting C (the example of the claim about
step contexts). -/
def stepAB : MacroStep :=
  { event := none, transition := none, entered_states := ["A", "B"], exited_states := ["C"] }

/-- A later step entering only D (to show a later context does not retain an
earlier step's sets). -/
def stepD : MacroStep :=
  { event := none, transition := none, entered_states := ["D"], exited_states := [] }

/-- A sample configuration with one tester descriptor. -/
def cfgC : TesterConfiguration :=
  TesterConfiguration.add_test
    (TesterConfiguration.init (StateChart.mk "subject") none none)
    (StateChart.mk "watcher") none none

/-! ### Characterization of a failing relay -/

/-- If every tester before position `k` relays without raising and the tester
at position `k` raises with payload `p`, then `_execute_tester` returns the
testers before `k` relayed, the failing tester in its state at the raise, the
remaining testers untouched, and the enriched error built from the live
state. -/
theorem execute_tester_fail_char {V : Type} (sim : Simulator V) (step : Option MacroStep)
    (event : Event) (context : ObservationContext V) :
    ∀ (ts : List (Tester V)) (k : Nat) (hk : k < ts.length) (p : String),
    (∀ j (hj : j < k), (relayOne event context (ts.get ⟨j, Nat.lt_trans hj hk⟩)).2 = none) →
    (relayOne event context (ts.get ⟨k, hk⟩)).2 = some p →
    _execute_tester sim step event context ts =
      ((ts.take k).map (fun t => (relayOne event context t).1) ++
        (relayOne event context (ts.get ⟨k, hk⟩)).1 :: ts.drop (k + 1),
       some { simulatorName := sim.name
              testerName := (relayOne event context (ts.get ⟨k, hk⟩)).1.name
              exceptionArgs := p
              testerConfiguration := (relayOne event context (ts.get ⟨k, hk⟩)).1.config
              simulatorConfiguration := sim.config
              step := step }) := by
  intro ts
  induction ts with
  | nil => intro k hk; exact absurd hk (Nat.not_lt_zero k)
  | cons t rest ih =>
    intro k hk p hpre hfail
    cases k with
    | zero =>
      simp only [List.get] at hfail
      cases hrel : relayOne event context t with
      | mk t1 r =>
        rw [hrel] at hfail
        simp only at hfail
        subst hfail
        simp [_execute_tester, hrel]
    | succ k0 =>
      have hhead : (relayOne event context t).2 = none := by
        have := hpre 0 (Nat.succ_pos k0)
        simpa using this
      cases hrel : relayOne event context t with
      | mk t1 r =>
        rw [hrel] at hhead
        simp only at hhead
        subst hhead
        have hk0 : k0 < rest.length := Nat.lt_of_succ_lt_succ hk
        have hpre0 : ∀ j (hj : j < k0),
            (relayOne event context (rest.get ⟨j, Nat.lt_trans hj hk0⟩)).2 = none := by
          intro j hj
          have := hpre (j + 1) (Nat.succ_lt_succ hj)
          simpa using this
        have hfail0 : (relayOne event context (rest.get ⟨k0, hk0⟩)).2 = some p := by
          simpa using hfail
        have := ih k0 hk0 p hpre0 hfail0
        simp only [_execute_tester, hrel, this]
        simp [hrel]

/-- Claim C3: whenever a tester's execution during a relay raises an
assertion failure, the failure is caught and re-raised (never swallowed) with
its message rewritten to carry the subject's statechart name, the failing
tester's statechart name, the original failure payload, the failing tester's
current active configuration, the subject's current active configuration, and
the originating step (or `none` for a start/stop relay). -/
theorem execute_tester_enriches_and_reraises {V : Type} (sim : Simulator V)
    (step : Option MacroStep) (event : Event) (context : ObservationContext V)
    (ts : List (Tester V)) (k : Nat) (hk : k < ts.length) (p : String)
    (hpre : ∀ j (hj : j < k), (relayOne event context (ts.get ⟨j, Nat.lt_trans hj hk⟩)).2 = none)
    (hfail : (relayOne event context (ts.get ⟨k, hk⟩)).2 = some p) :
    (_execute_tester sim step event context ts).2 =
      some { simulatorName := sim.name
             testerName := (relayOne event context (ts.get ⟨k, hk⟩)).1.name
             exceptionArgs := p
             testerConfiguration := (relayOne event context (ts.get ⟨k, hk⟩)).1.config
             simulatorConfiguration := sim.config
             step := step } := by
  rw [execute_tester_fail_char sim step event context ts k hk p hpre hfail]

/-- Witness for the claim C3 theorem at a concrete failing relay: tester `F`
at position 1 raises `boom`; the relay result carries the enriched error with
the subject's name and configuration, the tester's name and configuration at
the raise, the payload, and the absent step. -/
theorem execute_tester_enriches_and_reraises_witness :
    (relayOne (Event.mk "start") (_create_context simEmpty none)
        ([tA, tFail, tB].get ⟨1, by decide⟩)).2 = some "boom" ∧
    (_execute_tester simEmpty none (Event.mk "start") (_create_context simEmpty none)
        [tA, tFail, tB]).2 =
      some { simulatorName := "subject", testerName := "F", exceptionArgs := "boom",
             testerConfiguration := ["stuck"], simulatorConfiguration := ["s1"],
             step := none } :=
  ⟨rfl, by
    have h := execute_tester_enriches_and_reraises simEmpty none (Event.mk "start")
      (_create_context simEmpty none) [tA, tFail, tB] 1 (by decide) "boom"
      (by intro j hj
          interval_cases j
          rfl)
      rfl
    exact h⟩

/-- Claim C4: if tester `k` raises during a relay to `N` testers, the testers
after `k` are not sent the synthetic event, receive no overlay and are not
executed during that relay call: the result list is the relayed prefix, the
failing tester in its state at the raise, and the untouched suffix. -/
theorem execute_tester_fail_fast {V : Type} (sim : Simulator V)
    (step : Option MacroStep) (event : Event) (context : ObservationContext V)
    (ts : List (Tester V)) (k : Nat) (hk : k < ts.length) (p : String)
    (hpre : ∀ j (hj : j < k), (relayOne event context (ts.get ⟨j, Nat.lt_trans hj hk⟩)).2 = none)
    (hfail : (relayOne event context (ts.get ⟨k, hk⟩)).2 = some p) :
    (_execute_tester sim step event context ts).1 =
      (ts.take k).map (fun t => (relayOne event context t).1) ++
        (relayOne event context (ts.get ⟨k, hk⟩)).1 :: ts.drop (k + 1) ∧
    ((_execute_tester sim step event context ts).1).drop (k + 1) = ts.drop (k + 1) := by
  have hchar := execute_tester_fail_char sim step event context ts k hk p hpre hfail
  constructor
  · rw [hchar]
  · rw [hchar]
    have hlen : ((ts.take k).map (fun t => (relayOne event context t).1)).length = k := by
      simp [List.length_take, Nat.min_eq_left (Nat.le_of_lt hk)]
    rw [show k + 1 = ((ts.take k).map (fun t => (relayOne event context t).1)).length + 1 by
      rw [hlen]]
    rw [List.drop_append]
    simp

/-- Witness for the claim C4 theorem at a concrete failing relay: with tester
`F` at position 1 of three testers raising, the tester after it is returned
untouched (it received nothing), while the testers up to the failure were each
sent exactly one event. -/
theorem execute_tester_fail_fast_witness :
    (relayOne (Event.mk "start") (_create_context simEmpty none)
        ([tA, tFail, tB].get ⟨1, by decide⟩)).2 = some "boom" ∧
    ((_execute_tester simEmpty none (Event.mk "start") (_create_context simEmpty none)
        [tA, tFail, tB]).1).drop 2 = [tB] ∧
    ((_execute_tester simEmpty none (Event.mk "start") (_create_context simEmpty none)
        [tA, tFail, tB]).1).map (fun t => (t.name, t.received.length)) =
      [("A", 1), ("F", 1), ("B", 0)] :=
  ⟨rfl, by
    have h := (execute_tester_fail_fast simEmpty none (Event.mk "start")
      (_create_context simEmpty none) [tA, tFail, tB] 1 (by decide) "boom"
      (by intro j hj
          interval_cases j
          rfl)
      rfl).2
    exact h, by decide⟩

/-- Claim C5: the context built for a step answers `entered`/`exited` exactly
by membership in that step's entered/exited sets, for any state name and any
step — so a context built for a later step reflects only that step's sets —
and, at the claim's example, for entered-set `[A, B]` and exited-set `[C]`:
`entered A`, `entered B`, `exited C` are true while `entered C`, `exited A`
are false, and a later step entering only `D` yields a context on which
`entered A` is false. -/
theorem create_context_entered_exited {V : Type} (sim : Simulator V) (st : MacroStep)
    (s : String) :
    ((_create_context sim (some st)).entered s = st.entered_states.contains s ∧
     (_create_context sim (some st)).exited s = st.exited_states.contains s) ∧
    ((_create_context simEmpty (some stepAB)).entered "A" = true ∧
     (_create_context simEmpty (some stepAB)).entered "B" = true ∧
     (_create_context simEmpty (some stepAB)).entered "C" = false ∧
     (_create_context simEmpty (some stepAB)).exited "C" = true ∧
     (_create_context simEmpty (some stepAB)).exited "A" = false ∧
     (_create_context simEmpty (some stepD)).entered "A" = false ∧
     (_create_context simEmpty (some stepD)).entered "D" = true) :=
  ⟨⟨rfl, rfl⟩, by decide⟩

/-- Claim C6: a context built with no step (the `start` and `stop` relays)
answers `entered`, `exited`, `processed` and `consumed` false for every state
or event name, while `active` and `context` reflect the subject's
configuration and evaluation context at that moment. -/
theorem create_context_no_step {V : Type} (sim : Simulator V) (s e : String) :
    (_create_context sim none).entered s = false ∧
    (_create_context sim none).exited s = false ∧
    (_create_context sim none).processed (some e) = false ∧
    (_create_context sim none).consumed (some e) = false ∧
    (_create_context sim none).active s = sim.config.contains s ∧
    (_create_context sim none).context = sim.evalContext :=
  ⟨rfl, rfl, rfl, rfl, rfl, rfl⟩

/-- Claim C9: `consumed` and `processed` are plain equality against a stored
optional name, so whenever the consumed event is absent (no step, or an
eventless step), `consumed none` is true, and whenever no fired transition's
triggering event exists, `processed none` is true. -/
theorem create_context_none_predicates {V : Type} (sim : Simulator V)
    (step : Option MacroStep) :
    ((step.bind fun st => st.event) = none →
      (_create_context sim step).consumed none = true) ∧
    (((step.bind fun st => st.transition).bind fun tr => tr.event) = none →
      (_create_context sim step).processed none = true) := by
  constructor
  · intro h
    simp [_create_context, h]
  · intro h
    simp [_create_context, h]

/-- Witness for the claim C9 theorem: at the start/stop context (no step) both
predicates answer true on `none`, and at an eventless step (`stepD`, no
consumed event and no transition) likewise. -/
theorem create_context_none_predicates_witness :
    (_create_context simEmpty none).consumed none = true ∧
    (_create_context simEmpty none).processed none = true ∧
    (_create_context simEmpty (some stepD)).consumed none = true ∧
    (_create_context simEmpty (some stepD)).processed none = true :=
  ⟨(create_context_none_predicates simEmpty none).1 rfl,
   (create_context_none_predicates simEmpty none).2 rfl,
   (create_context_none_predicates simEmpty (some stepD)).1 rfl,
   (create_context_none_predicates simEmpty (some stepD)).2 rfl⟩

/-- Claim C1 (refuted by evaluation): a single `stop()` call on a harness with
two benign-final testers delivers the synthetic `stop` event TWICE to each
tester, not exactly once — the per-tester loop of `stop()` calls
`_execute_tester`, which itself relays to every tester, once per iteration.
No assertion is raised (both testers are final), so the duplication is not an
error path. -/
theorem stop_delivers_stop_per_tester_per_iteration :
    ((StateChartTester.stop h0).1._testers.map
      (fun t => t.received.count (Event.mk "stop"))) = [2, 2] ∧
    ((StateChartTester.stop h0).1._testers.map
      (fun t => t.received.map Event.name)) =
      [["start", "stop", "stop"], ["start", "stop", "stop"]] ∧
    (StateChartTester.stop h0).2 = none := by
  decide

/-- Claim C2 (refuted by evaluation): driving a one-step subject with two
benign-final testers to natural termination delivers to each tester the
sequence `start`, `step`, `stop`, `stop` — the `stop` event arrives once per
tester per tester (twice here), not exactly once, because of the duplicated
relay inside `stop()`; `start` and the per-step `step` events are delivered
as the claim states. -/
theorem lifecycle_trace_duplicates_stop :
    (StateChartTester.init sim1 [tA, tB] []).2 = none ∧
    ((StateChartTester.execute h1two (-1)).2.1._testers.map
      (fun t => t.received.map Event.name)) =
      [["start", "step", "stop", "stop"], ["start", "step", "stop", "stop"]] ∧
    (StateChartTester.execute h1two (-1)).2.2 = none := by
  decide

/-- The allocation counter after `buildTesters`, and the id bounds of every
engine it constructs. -/
theorem buildTesters_ids :
    ∀ (tests : List (StateChart × Option String × Option Nat)) (a : Nat),
    (buildTesters tests a).2 = a + tests.length ∧
    ∀ r ∈ (buildTesters tests a).1, a ≤ r.id ∧ r.id < a + tests.length := by
  intro tests
  induction tests with
  | nil => intro a; exact ⟨rfl, by intro r hr; simp [buildTesters] at hr⟩
  | cons hd tl ih =>
    intro a
    obtain ⟨hc, hb⟩ := ih (a + 1)
    cases hbt : buildTesters tl (a + 1) with
    | mk ts a1 =>
      rw [hbt] at hc hb
      constructor
      · show (buildTesters (hd :: tl) a).2 = a + (hd :: tl).length
        simp only [buildTesters, hbt]
        simp only at hc
        simp [hc]
        omega
      · intro r hr
        simp only [buildTesters, hbt] at hr
        simp only [List.mem_cons] at hr
        rcases hr with hr | hr
        · subst hr
          refine ⟨Nat.le_refl a, ?_⟩
          show a < a + (hd :: tl).length
          simp only [List.length_cons]
          omega
        · have := hb r hr
          simp only at this
          simp only [List.length_cons]
          omega

/-- Claim C8: `build_tester` does not mutate the configuration (the returned
configuration equals the input one, for both calls), and two successive
builds from the same configuration own pairwise distinct engine instances
(their allocation-id sets are disjoint), so no mutable engine state is
shared. -/
theorem build_tester_pure_and_fresh (cfg : TesterConfiguration)
    (events1 events2 : List Event) (alloc : Nat) :
    (cfg.build_tester events1 alloc).1 = cfg ∧
    (cfg.build_tester events2 (cfg.build_tester events1 alloc).2.2).1 = cfg ∧
    ∀ i ∈ harnessIds (cfg.build_tester events1 alloc).2.1,
      i ∉ harnessIds (cfg.build_tester events2 (cfg.build_tester events1 alloc).2.2).2.1 := by
  refine ⟨rfl, rfl, ?_⟩
  intro i hi hj
  obtain ⟨hc1, hb1⟩ := buildTesters_ids cfg._statechart_tests (alloc + 1)
  have ha1 : (cfg.build_tester events1 alloc).2.2 =
      alloc + 1 + cfg._statechart_tests.length := hc1
  set a1 := (cfg.build_tester events1 alloc).2.2 with ha1def
  obtain ⟨hc2, hb2⟩ := buildTesters_ids cfg._statechart_tests (a1 + 1)
  have hi1 : i = alloc ∨ alloc + 1 ≤ i ∧ i < alloc + 1 + cfg._statechart_tests.length := by
    simp only [harnessIds, TesterConfiguration.build_tester, List.mem_cons,
      List.mem_map] at hi
    rcases hi with hi | ⟨r, hr, hid⟩
    · exact Or.inl hi
    · exact Or.inr (by have := hb1 r hr; omega)
  have hj1 : i = a1 ∨ a1 + 1 ≤ i ∧ i < a1 + 1 + cfg._statechart_tests.length := by
    simp only [harnessIds, TesterConfiguration.build_tester, List.mem_cons,
      List.mem_map] at hj
    rcases hj with hj | ⟨r, hr, hid⟩
    · exact Or.inl hj
    · exact Or.inr (by have := hb2 r hr; omega)
  omega

/-- Witness for the claim C8 theorem at a concrete configuration with one
tester descriptor: the configuration is returned unchanged and the subject
engine of the first harness (id 0) is not among the engines of the second. -/
theorem build_tester_pure_and_fresh_witness :
    (cfgC.build_tester [] 0).1 = cfgC ∧
    (0 : Nat) ∉ harnessIds (cfgC.build_tester [] ((cfgC.build_tester [] 0).2.2)).2.1 ∧
    harnessIds (cfgC.build_tester [] 0).2.1 = [0, 1] ∧
    harnessIds (cfgC.build_tester [] ((cfgC.build_tester [] 0).2.2)).2.1 = [2, 3] :=
  ⟨(build_tester_pure_and_fresh cfgC [] [] 0).1,
   (build_tester_pure_and_fresh cfgC [] [] 0).2.2 0 (by decide),
   by decide, by decide⟩

/-! ### Relays to benign-final testers -/

/-- Pointwise-equal functions map a list to the same list. -/
theorem list_map_congr_mem {α β : Type} {f g : α → β} :
    ∀ (l : List α), (∀ a ∈ l, f a = g a) → l.map f = l.map g := by
  intro l
  induction l with
  | nil => intro _; rfl
  | cons a l ih =>
    intro h
    simp only [List.map_cons]
    rw [h a (List.mem_cons_self a l), ih (fun b hb => h b (List.mem_cons_of_mem a hb))]

/-- Relaying one synthetic event to a benign-final tester never raises,
appends exactly that event to its delivery trace, leaves it non-running, and
preserves its reaction function and name. -/
theorem relayOne_benign {V : Type} (event : Event) (context : ObservationContext V)
    (t : Tester V) (hb : BenignFinal t) :
    (relayOne event context t).2 = none ∧
    (relayOne event context t).1.received = t.received ++ [event] ∧
    (relayOne event context t).1.running = false ∧
    (relayOne event context t).1.exec = t.exec ∧
    (relayOne event context t).1.name = t.name := by
  obtain ⟨h1, h2⟩ := hb (t.received ++ [event]) (overlayCtx t.ctx context) t.config t.running
  exact ⟨h1, rfl, h2, rfl, rfl⟩

/-- Benign-finality only depends on the reaction function. -/
theorem benignFinal_of_exec_eq {V : Type} {t1 t2 : Tester V} (h : t1.exec = t2.exec)
    (hb : BenignFinal t2) : BenignFinal t1 := by
  intro rcv ctx cfg run
  rw [h]
  exact hb rcv ctx cfg run

/-- A relay over a list of benign-final testers raises nothing and maps each
tester through its single-tester relay. -/
theorem execute_tester_benign {V : Type} (sim : Simulator V) (step : Option MacroStep)
    (event : Event) (context : ObservationContext V) :
    ∀ (ts : List (Tester V)), (∀ t ∈ ts, BenignFinal t) →
    _execute_tester sim step event context ts =
      (ts.map (fun t => (relayOne event context t).1), none) := by
  intro ts
  induction ts with
  | nil => intro _; rfl
  | cons t rest ih =>
    intro hb
    have hbt := hb t (List.mem_cons_self t rest)
    have hnone := (relayOne_benign event context t hbt).1
    cases hrel : relayOne event context t with
    | mk t1 r =>
      rw [hrel] at hnone
      simp only at hnone
      subst hnone
      have hrest := ih (fun t2 ht2 => hb t2 (List.mem_cons_of_mem t ht2))
      simp only [_execute_tester, hrel, hrest]
      simp [hrel]

/-- Benign-finality is preserved by relaying. -/
theorem map_relay_benign {V : Type} (event : Event) (context : ObservationContext V)
    (ts : List (Tester V)) (hb : ∀ t ∈ ts, BenignFinal t) :
    ∀ t2 ∈ ts.map (fun t => (relayOne event context t).1), BenignFinal t2 := by
  intro t2 ht2
  rw [List.mem_map] at ht2
  obtain ⟨t0, ht0, heq⟩ := ht2
  have hex := (relayOne_benign event context t0 (hb t0 ht0)).2.2.2.1
  exact benignFinal_of_exec_eq (by rw [← heq, hex]) (hb t0 ht0)

/-- The delivery traces after relaying one event to benign-final testers. -/
theorem map_relay_received {V : Type} (event : Event) (context : ObservationContext V)
    (ts : List (Tester V)) (hb : ∀ t ∈ ts, BenignFinal t) :
    (ts.map (fun t => (relayOne event context t).1)).map (fun t => t.received) =
      ts.map (fun t => t.received ++ [event]) := by
  rw [List.map_map]
  exact list_map_congr_mem ts (fun t ht =>
    (relayOne_benign event context t (hb t ht)).2.1)

/-- Behaviour of the `stop()` loop over benign-final testers, from iteration
index `k` with `fuel` iterations left: no exception is raised and every
remaining iteration relays one further `stop`-style event to every tester. -/
theorem stopAux_benign {V : Type} (sim : Simulator V) (event : Event)
    (context : ObservationContext V) :
    ∀ (n k : Nat) (ts : List (Tester V)), (∀ t ∈ ts, BenignFinal t) →
    k + n ≤ ts.length →
    (stopAux sim event context ts k n).2 = none ∧
    (stopAux sim event context ts k n).1.map (fun t => t.received) =
      ts.map (fun t => t.received ++ List.replicate n event) ∧
    (stopAux sim event context ts k n).1.length = ts.length ∧
    (∀ t ∈ (stopAux sim event context ts k n).1, BenignFinal t) := by
  intro n
  induction n with
  | zero =>
    intro k ts hb _
    refine ⟨rfl, ?_, rfl, hb⟩
    simp [stopAux]
  | succ n ih =>
    intro k ts hb hkn
    have hk : k < ts.length := by omega
    have hrel := execute_tester_benign sim none event context ts hb
    have hb1 := map_relay_benign event context ts hb
    have hgetk : (ts.map (fun t => (relayOne event context t).1))[k]? =
        some ((relayOne event context ts[k]).1) := by
      rw [List.getElem?_eq_getElem (by simpa using hk)]
      simp
    have hrun : ((relayOne event context ts[k]).1).running = false :=
      (relayOne_benign event context ts[k] (hb ts[k] (ts.getElem_mem hk))).2.2.1
    obtain ⟨g1, g2, g3, g4⟩ := ih (k + 1) (ts.map (fun t => (relayOne event context t).1))
      hb1 (by simpa using by omega)
    have hred : stopAux sim event context ts k (n + 1) =
        stopAux sim event context (ts.map (fun t => (relayOne event context t).1)) (k + 1) n := by
      simp only [stopAux, hrel, hgetk, hrun]
      simp
    rw [hred]
    refine ⟨g1, ?_, ?_, g4⟩
    · rw [g2, List.map_map]
      exact list_map_congr_mem ts (fun t ht => by
        simp only [Function.comp]
        rw [(relayOne_benign event context t (hb t ht)).2.1]
        simp [List.append_assoc, List.replicate_succ])
    · rw [g3]
      simp

/-- Calling `stop()` on a harness whose testers are all benign-final: no exception,
the subject and the events are untouched, and every tester receives one
`stop` event per tester in the list (the duplication of the source's loop). -/
theorem stop_benign {V : Type} (h : StateChartTester V)
    (hb : ∀ t ∈ h._testers, BenignFinal t) :
    (StateChartTester.stop h).2 = none ∧
    (StateChartTester.stop h).1._testers.map (fun t => t.received) =
      h._testers.map (fun t => t.received ++
        List.replicate h._testers.length (Event.mk "stop")) ∧
    (StateChartTester.stop h).1._simulator = h._simulator ∧
    (StateChartTester.stop h).1._events = h._events ∧
    (StateChartTester.stop h).1._testers.length = h._testers.length ∧
    (∀ t ∈ (StateChartTester.stop h).1._testers, BenignFinal t) := by
  obtain ⟨h1, h2, h3, h4⟩ := stopAux_benign h._simulator (Event.mk "stop")
    (_create_context h._simulator none) h._testers.length 0 h._testers hb (by omega)
  exact ⟨h1, h2, rfl, rfl, h3, h4⟩

/-- Calling `stop()` never touches the subject engine. -/
theorem stop_preserves_simulator {V : Type} (h : StateChartTester V) :
    (StateChartTester.stop h).1._simulator = h._simulator := rfl

/-- Calling `execute_once` on an exhausted subject is exactly a `stop()` call. -/
theorem execute_once_nil {V : Type} (h : StateChartTester V)
    (hp : h._simulator.pending = []) :
    StateChartTester.execute_once h =
      (none, (StateChartTester.stop h).1, (StateChartTester.stop h).2) := by
  simp only [StateChartTester.execute_once, Simulator.execute_once, hp]

/-- Calling `execute_once` on a subject with a pending step, when every tester is
benign-final: the subject advances by the scripted entry and every tester is
relayed the synthetic `step` event with the context built from the post-step
subject state. -/
theorem execute_once_cons_benign {V : Type} (h : StateChartTester V) (e : ScriptEntry V)
    (rest : List (ScriptEntry V)) (hp : h._simulator.pending = e :: rest)
    (hb : ∀ t ∈ h._testers, BenignFinal t) :
    StateChartTester.execute_once h =
      (some e.step,
       { h with
           _simulator :=
             { h._simulator with config := e.config, evalContext := e.evalCtx, pending := rest },
           _testers := h._testers.map (fun t =>
             (relayOne (Event.mk "step")
               (_create_context
                 { h._simulator with config := e.config, evalContext := e.evalCtx, pending := rest }
                 (some e.step)) t).1) },
       none) := by
  have hrel := execute_tester_benign
    { h._simulator with config := e.config, evalContext := e.evalCtx, pending := rest }
    (some e.step) (Event.mk "step")
    (_create_context
      { h._simulator with config := e.config, evalContext := e.evalCtx, pending := rest }
      (some e.step))
    h._testers hb
  simp only [StateChartTester.execute_once, Simulator.execute_once, hp, hrel]

/-- The `execute` loop on a subject with script `S` and benign-final testers,
with no positive bound in force: it collects exactly the scripted steps,
exhausts the subject, raises nothing, and each tester's trace is extended by
one `step` event per scripted step followed by one `stop` event per tester. -/
theorem executeAux_unbounded {V : Type} :
    ∀ (S : List (ScriptEntry V)) (fuel : Nat) (h : StateChartTester V) (m i : Int),
    h._simulator.pending = S → (∀ t ∈ h._testers, BenignFinal t) → m ≤ 0 →
    S.length < fuel →
    (executeAux fuel h m i).2.2 = none ∧
    (executeAux fuel h m i).1 = S.map (fun e => e.step) ∧
    (executeAux fuel h m i).2.1._simulator.pending = [] ∧
    (executeAux fuel h m i).2.1._testers.map (fun t => t.received) =
      h._testers.map (fun t => t.received ++ List.replicate S.length (Event.mk "step")
        ++ List.replicate h._testers.length (Event.mk "stop")) := by
  intro S
  induction S with
  | nil =>
    intro fuel h m i hp hb _ hfuel
    obtain ⟨fuel, rfl⟩ : ∃ f, fuel = f + 1 := ⟨fuel - 1, by omega⟩
    obtain ⟨s1, s2, s3, s4, s5, s6⟩ := stop_benign h hb
    cases hs : StateChartTester.stop h with
    | mk h1 err =>
      rw [hs] at s1 s2 s3
      simp only at s1 s2 s3
      subst s1
      have hred : executeAux (fuel + 1) h m i = ([], h1, none) := by
        simp only [executeAux, execute_once_nil h hp, hs]
      rw [hred]
      refine ⟨rfl, by simp, ?_, ?_⟩
      · show h1._simulator.pending = []
        rw [s3, hp]
      · show h1._testers.map (fun t => t.received) = _
        rw [s2]
        simp
  | cons e rest ih =>
    intro fuel h m i hp hb hm hfuel
    obtain ⟨fuel, rfl⟩ : ∃ f, fuel = f + 1 := ⟨fuel - 1, by omega⟩
    have hco := execute_once_cons_benign h e rest hp hb
    have hb2 := map_relay_benign (Event.mk "step")
      (_create_context
        { h._simulator with config := e.config, evalContext := e.evalCtx, pending := rest }
        (some e.step)) h._testers hb
    obtain ⟨g1, g2, g3, g4⟩ := ih fuel
      { h with
          _simulator :=
            { h._simulator with config := e.config, evalContext := e.evalCtx, pending := rest },
          _testers := h._testers.map (fun t =>
            (relayOne (Event.mk "step")
              (_create_context
                { h._simulator with config := e.config, evalContext := e.evalCtx, pending := rest }
                (some e.step)) t).1) }
      m (i + 1) rfl hb2 hm
      (by simp only [List.length_cons] at hfuel; omega)
    simp only [executeAux, hco]
    rw [if_neg (by omega)]
    cases hrec : executeAux fuel
      { h with
          _simulator :=
            { h._simulator with config := e.config, evalContext := e.evalCtx, pending := rest },
          _testers := h._testers.map (fun t =>
            (relayOne (Event.mk "step")
              (_create_context
                { h._simulator with config := e.config, evalContext := e.evalCtx, pending := rest }
                (some e.step)) t).1) }
      m (i + 1) with
    | mk steps2 rec2 =>
      cases rec2 with
      | mk h3 err2 =>
        rw [hrec] at g1 g2 g3 g4
        simp only at g1 g2 g3 g4
        subst g1
        refine ⟨rfl, ?_, g3, ?_⟩
        · simp [g2]
        · rw [g4, List.map_map]
          simp only [List.length_map, List.length_cons]
          exact list_map_congr_mem h._testers (fun t ht => by
            simp only [Function.comp]
            rw [(relayOne_benign (Event.mk "step")
              (_create_context
                { h._simulator with config := e.config, evalContext := e.evalCtx, pending := rest }
                (some e.step)) t (hb t ht)).2.1]
            simp [List.append_assoc, List.replicate_succ])

/-- The `execute` loop under a positive bound that fires before the script
runs out: with `n` steps still to collect (`i + n = m`), benign-final
testers and at least `n` scripted steps remaining, the loop collects exactly
the next `n` scripted steps, stops without ever calling `stop()` (each
tester's trace gains exactly `n` `step` events and nothing else), and leaves
the rest of the script pending. -/
theorem executeAux_bounded {V : Type} :
    ∀ (n : Nat) (fuel : Nat) (h : StateChartTester V) (m i : Int),
    0 < n → i + n = m → 0 ≤ i → n ≤ h._simulator.pending.length → n ≤ fuel →
    (∀ t ∈ h._testers, BenignFinal t) →
    (executeAux fuel h m i).2.2 = none ∧
    (executeAux fuel h m i).1 = (h._simulator.pending.take n).map (fun e => e.step) ∧
    (executeAux fuel h m i).2.1._simulator.pending = h._simulator.pending.drop n ∧
    (executeAux fuel h m i).2.1._testers.map (fun t => t.received) =
      h._testers.map (fun t => t.received ++ List.replicate n (Event.mk "step")) ∧
    (executeAux fuel h m i).2.1._testers.length = h._testers.length ∧
    (∀ t ∈ (executeAux fuel h m i).2.1._testers, BenignFinal t) := by
  intro n
  induction n with
  | zero => intro fuel h m i hn; exact absurd hn (Nat.lt_irrefl 0)
  | succ n ih =>
    intro fuel h m i _ him hi hlen hfuel hb
    obtain ⟨fuel, rfl⟩ : ∃ f, fuel = f + 1 := ⟨fuel - 1, by omega⟩
    cases hpend : h._simulator.pending with
    | nil => rw [hpend] at hlen; simp at hlen
    | cons e rest =>
      rw [hpend] at hlen
      simp only [List.length_cons] at hlen
      have hco := execute_once_cons_benign h e rest hpend hb
      have hb2 := map_relay_benign (Event.mk "step") (_create_context { h._simulator with config := e.config, evalContext := e.evalCtx, pending := rest } (some e.step)) h._testers hb
      rcases Nat.eq_zero_or_pos n with hn0 | hnpos
      · subst hn0
        have hcond : m > 0 ∧ i + 1 = m := by constructor <;> omega
        have hred : executeAux (fuel + 1) h m i =
            ([e.step],
             { h with _simulator := { h._simulator with config := e.config, evalContext := e.evalCtx, pending := rest }, _testers := h._testers.map (fun t => (relayOne (Event.mk "step") (_create_context { h._simulator with config := e.config, evalContext := e.evalCtx, pending := rest } (some e.step)) t).1) },
             none) := by
          simp only [executeAux, hco]
          rw [if_pos hcond]
        rw [hred]
        refine ⟨rfl, by simp, by simp, ?_, by simp, hb2⟩
        show (h._testers.map (fun t => (relayOne (Event.mk "step") (_create_context { h._simulator with config := e.config, evalContext := e.evalCtx, pending := rest } (some e.step)) t).1)).map (fun t => t.received) = _
        rw [map_relay_received (Event.mk "step") (_create_context { h._simulator with config := e.config, evalContext := e.evalCtx, pending := rest } (some e.step)) h._testers hb]
        exact list_map_congr_mem h._testers (fun t ht => by simp [List.replicate_succ])
      · have hcond : ¬(m > 0 ∧ i + 1 = m) := by omega
        obtain ⟨g1, g2, g3, g4, g5, g6⟩ := ih fuel
          { h with _simulator := { h._simulator with config := e.config, evalContext := e.evalCtx, pending := rest }, _testers := h._testers.map (fun t => (relayOne (Event.mk "step") (_create_context { h._simulator with config := e.config, evalContext := e.evalCtx, pending := rest } (some e.step)) t).1) }
          m (i + 1) hnpos (by omega) (by omega) (by simpa using by omega) (by omega) hb2
        simp only [executeAux, hco]
        rw [if_neg hcond]
        cases hrec : executeAux fuel
          { h with _simulator := { h._simulator with config := e.config, evalContext := e.evalCtx, pending := rest }, _testers := h._testers.map (fun t => (relayOne (Event.mk "step") (_create_context { h._simulator with config := e.config, evalContext := e.evalCtx, pending := rest } (some e.step)) t).1) }
          m (i + 1) with
        | mk steps2 rec2 =>
          cases rec2 with
          | mk h3 err2 =>
            rw [hrec] at g1 g2 g3 g4 g5 g6
            simp only at g1 g2 g3 g4 g5 g6
            subst g1
            refine ⟨rfl, ?_, ?_, ?_, ?_, g6⟩
            · show e.step :: steps2 = _
              rw [List.take_succ_cons]
              simp [g2]
            · show h3._simulator.pending = _
              rw [List.drop_succ_cons]
              exact g3
            · show h3._testers.map (fun t => t.received) = _
              rw [g4, List.map_map]
              exact list_map_congr_mem h._testers (fun t ht => by
                simp only [Function.comp]
                rw [(relayOne_benign (Event.mk "step") (_create_context { h._simulator with config := e.config, evalContext := e.evalCtx, pending := rest } (some e.step)) t (hb t ht)).2.1]
                simp [List.append_assoc, List.replicate_succ])
            · show h3._testers.length = _
              rw [g5]
              simp

/-- Calling `execute_once` on a subject with a pending step, with no assumption on the
testers: the subject advances and the relay's outcome decides between the
step-returning and the exception-propagating result. -/
theorem execute_once_cons {V : Type} (h : StateChartTester V) (e : ScriptEntry V)
    (rest : List (ScriptEntry V)) (hp : h._simulator.pending = e :: rest) :
    StateChartTester.execute_once h =
      (match _execute_tester { h._simulator with config := e.config, evalContext := e.evalCtx, pending := rest } (some e.step) (Event.mk "step") (_create_context { h._simulator with config := e.config, evalContext := e.evalCtx, pending := rest } (some e.step)) h._testers with
       | (ts1, some er) =>
          (none, { h with _simulator := { h._simulator with config := e.config, evalContext := e.evalCtx, pending := rest }, _testers := ts1 }, some (HarnessError.assertion er))
       | (ts1, none) =>
          (some e.step, { h with _simulator := { h._simulator with config := e.config, evalContext := e.evalCtx, pending := rest }, _testers := ts1 }, none)) := by
  simp only [StateChartTester.execute_once, Simulator.execute_once, hp]

/-- The `execute` loop ignores the value of a non-positive bound: it behaves
exactly as with the default bound `-1`, whatever the step counter. -/
theorem executeAux_nonpos {V : Type} :
    ∀ (fuel : Nat) (h : StateChartTester V) (m i j : Int), m ≤ 0 →
    executeAux fuel h m i = executeAux fuel h (-1) j := by
  intro fuel
  induction fuel with
  | zero => intro h m i j _; rfl
  | succ fuel ih =>
    intro h m i j hm
    simp only [executeAux]
    cases hoc : StateChartTester.execute_once h with
    | mk stepOpt rest1 =>
      cases rest1 with
      | mk h1 errOpt =>
        cases stepOpt with
        | none =>
          cases errOpt with
          | some e => rfl
          | none => rfl
        | some st =>
          cases errOpt with
          | some e => rfl
          | none =>
            dsimp only
            rw [if_neg (show ¬(m > 0 ∧ i + 1 = m) by omega),
              if_neg (show ¬((-1 : Int) > 0 ∧ j + 1 = -1) by omega),
              ih h1 m (i + 1) (j + 1) hm]

/-- When no exception propagates and no positive bound is in force, the
`execute` loop only ends once the subject has no pending step left. -/
theorem executeAux_exhaust {V : Type} :
    ∀ (fuel : Nat) (h : StateChartTester V) (m i : Int),
    h._simulator.pending.length < fuel → m ≤ 0 →
    (executeAux fuel h m i).2.2 = none →
    (executeAux fuel h m i).2.1._simulator.pending = [] := by
  intro fuel
  induction fuel with
  | zero => intro h m i hf; exact absurd hf (Nat.not_lt_zero _)
  | succ fuel ih =>
    intro h m i hf hm
    cases hpend : h._simulator.pending with
    | nil =>
      have hoc := execute_once_nil h hpend
      cases hs : StateChartTester.stop h with
      | mk h1 err =>
        rw [hs] at hoc
        have hsim : h1._simulator = h._simulator := by
          have hpres := stop_preserves_simulator h
          rw [hs] at hpres
          exact hpres
        cases err with
        | some er =>
          intro herr
          rw [show executeAux (fuel + 1) h m i = ([], h1, some er) from by
            simp only [executeAux, hoc]] at herr
          simp at herr
        | none =>
          intro _
          rw [show executeAux (fuel + 1) h m i = ([], h1, none) from by
            simp only [executeAux, hoc]]
          show h1._simulator.pending = []
          rw [hsim, hpend]
    | cons e rest =>
      rw [hpend] at hf
      simp only [List.length_cons] at hf
      have hoc := execute_once_cons h e rest hpend
      cases hrel : _execute_tester { h._simulator with config := e.config, evalContext := e.evalCtx, pending := rest } (some e.step) (Event.mk "step") (_create_context { h._simulator with config := e.config, evalContext := e.evalCtx, pending := rest } (some e.step)) h._testers with
      | mk ts1 errOpt =>
        rw [hrel] at hoc
        cases errOpt with
        | some er =>
          intro herr
          rw [show executeAux (fuel + 1) h m i =
              ([], { h with _simulator := { h._simulator with config := e.config, evalContext := e.evalCtx, pending := rest }, _testers := ts1 }, some (HarnessError.assertion er)) from by
            simp only [executeAux, hoc]] at herr
          simp at herr
        | none =>
          intro herr
          have hred : executeAux (fuel + 1) h m i =
              (match executeAux fuel { h with _simulator := { h._simulator with config := e.config, evalContext := e.evalCtx, pending := rest }, _testers := ts1 } m (i + 1) with
               | (_, h3, some e2) => ([], h3, some e2)
               | (rest2, h3, none) => (e.step :: rest2, h3, none)) := by
            simp only [executeAux, hoc]
            rw [if_neg (by omega)]
          rw [hred] at herr
          rw [hred]
          cases hrec : executeAux fuel { h with _simulator := { h._simulator with config := e.config, evalContext := e.evalCtx, pending := rest }, _testers := ts1 } m (i + 1) with
          | mk steps2 rec2 =>
            cases rec2 with
            | mk h3 err2 =>
              rw [hrec] at herr
              cases err2 with
              | some e2 => simp at herr
              | none =>
                have := ih { h with _simulator := { h._simulator with config := e.config, evalContext := e.evalCtx, pending := rest }, _testers := ts1 }
                  m (i + 1) (by simpa using by omega) hm (by rw [hrec])
                rw [hrec] at this
                simpa using this

/-- Claim C7: `execute(max_steps)` with a positive bound collects every
non-empty step and stops as soon as `max_steps` steps have been collected;
when the bound cuts the loop short (here: at most as many steps as the
subject still has), `stop()` and its finality checks are not invoked by that
call — each tester's trace gains exactly the `step` events and nothing else —
and a subsequent unbounded `execute()` continues from the next pending step
and eventually invokes `stop()` (each tester's trace ends with the `stop`
deliveries). -/
theorem execute_bounded_defers_stop {V : Type} (h : StateChartTester V) (m : Int)
    (hb : ∀ t ∈ h._testers, BenignFinal t) (hm : 0 < m)
    (hmP : m.toNat ≤ h._simulator.pending.length) :
    (StateChartTester.execute h m).2.2 = none ∧
    (StateChartTester.execute h m).1 =
      (h._simulator.pending.take m.toNat).map (fun e => e.step) ∧
    (StateChartTester.execute h m).1.length = m.toNat ∧
    (StateChartTester.execute h m).2.1._simulator.pending =
      h._simulator.pending.drop m.toNat ∧
    (StateChartTester.execute h m).2.1._testers.map (fun t => t.received) =
      h._testers.map (fun t => t.received ++ List.replicate m.toNat (Event.mk "step")) ∧
    (StateChartTester.execute (StateChartTester.execute h m).2.1 (-1)).2.2 = none ∧
    (StateChartTester.execute (StateChartTester.execute h m).2.1 (-1)).1 =
      (h._simulator.pending.drop m.toNat).map (fun e => e.step) ∧
    (StateChartTester.execute
        (StateChartTester.execute h m).2.1 (-1)).2.1._simulator.pending = [] ∧
    (StateChartTester.execute (StateChartTester.execute h m).2.1 (-1)).2.1._testers.map
        (fun t => t.received) =
      h._testers.map (fun t => t.received ++
        List.replicate h._simulator.pending.length (Event.mk "step") ++
        List.replicate h._testers.length (Event.mk "stop")) := by
  obtain ⟨b1, b2, b3, b4, b5, b6⟩ := executeAux_bounded m.toNat
    (h._simulator.pending.length + 1) h m 0 (by omega) (by omega) (by omega)
    hmP (by omega) hb
  have hexec : StateChartTester.execute h m =
      executeAux (h._simulator.pending.length + 1) h m 0 := rfl
  rw [hexec]
  obtain ⟨u1, u2, u3, u4⟩ := executeAux_unbounded
    (h._simulator.pending.drop m.toNat)
    ((executeAux (h._simulator.pending.length + 1) h m 0).2.1._simulator.pending.length + 1)
    (executeAux (h._simulator.pending.length + 1) h m 0).2.1 (-1) 0 b3 b6 (by omega)
    (by rw [b3]; omega)
  have hexec2 : StateChartTester.execute
      (executeAux (h._simulator.pending.length + 1) h m 0).2.1 (-1) =
      executeAux
        ((executeAux (h._simulator.pending.length + 1) h m 0).2.1._simulator.pending.length + 1)
        (executeAux (h._simulator.pending.length + 1) h m 0).2.1 (-1) 0 := rfl
  rw [hexec2]
  refine ⟨b1, b2, ?_, b3, b4, u1, u2, u3, ?_⟩
  · rw [b2]
    simp [List.length_take, Nat.min_eq_left hmP]
  · rw [u4]
    have hsplit : (executeAux (h._simulator.pending.length + 1) h m 0).2.1._testers.map
        (fun t => t.received ++
          List.replicate (h._simulator.pending.drop m.toNat).length (Event.mk "step") ++
          List.replicate
            (executeAux (h._simulator.pending.length + 1) h m 0).2.1._testers.length
            (Event.mk "stop")) =
        ((executeAux (h._simulator.pending.length + 1) h m 0).2.1._testers.map
          (fun t => t.received)).map
          (fun r => r ++
            List.replicate (h._simulator.pending.drop m.toNat).length (Event.mk "step") ++
            List.replicate
              (executeAux (h._simulator.pending.length + 1) h m 0).2.1._testers.length
              (Event.mk "stop")) := by
      rw [List.map_map]
      rfl
    rw [hsplit, b4, List.map_map, List.length_drop, b5]
    refine list_map_congr_mem h._testers (fun t ht => ?_)
    simp only [Function.comp]
    rw [List.append_assoc t.received, ← List.replicate_add,
      Nat.add_sub_cancel' hmP]

/-- Witness for the claim C7 theorem: on a subject with five pending steps and
one benign-final tester, `execute(max_steps=1)` returns exactly one step, no
exception, leaves four steps pending and never delivers `stop`; the following
unbounded `execute()` collects the remaining four steps and ends with the
`stop` delivery. -/
theorem execute_bounded_defers_stop_witness :
    (StateChartTester.execute h5 1).2.2 = none ∧
    (StateChartTester.execute h5 1).1.length = 1 ∧
    ((StateChartTester.execute h5 1).2.1._testers.map
      (fun t => t.received.map Event.name)) = [["start", "step"]] ∧
    (StateChartTester.execute h5 1).2.1._simulator.pending.length = 4 ∧
    (StateChartTester.execute (StateChartTester.execute h5 1).2.1 (-1)).2.2 = none ∧
    ((StateChartTester.execute (StateChartTester.execute h5 1).2.1 (-1)).2.1._testers.map
      (fun t => t.received.map Event.name)) =
      [["start", "step", "step", "step", "step", "step", "stop"]] :=
  ⟨(execute_bounded_defers_stop h5 1
      (by intro t ht
          cases List.mem_singleton.mp ht
          exact fun rcv c cfg run => ⟨rfl, rfl⟩)
      (by decide) (by decide)).1,
   by decide, by decide, by decide, by decide, by decide⟩

/-- Claim C10: for every non-positive `max_steps` argument (`0` as much as
the default `-1`), `execute` behaves as unbounded — the bound is only
compared when strictly positive — so the loop runs until the subject produces
no step (whenever it returns rather than raising, the subject's script is
exhausted). -/
theorem execute_nonpos_unbounded {V : Type} (h : StateChartTester V) (m : Int)
    (hm : m ≤ 0) :
    StateChartTester.execute h m = StateChartTester.execute h (-1) ∧
    ((StateChartTester.execute h m).2.2 = none →
      (StateChartTester.execute h m).2.1._simulator.pending = []) := by
  constructor
  · exact executeAux_nonpos (h._simulator.pending.length + 1) h m 0 0 hm
  · exact executeAux_exhaust (h._simulator.pending.length + 1) h m 0 (by omega) hm

/-- Witness for the claim C10 theorem: on the five-step subject,
`execute(max_steps=0)` equals the unbounded `execute()`, collects all five
steps and exhausts the subject. -/
theorem execute_nonpos_unbounded_witness :
    StateChartTester.execute h5 0 = StateChartTester.execute h5 (-1) ∧
    (StateChartTester.execute h5 0).1.length = 5 ∧
    (StateChartTester.execute h5 0).2.1._simulator.pending = [] :=
  ⟨(execute_nonpos_unbounded h5 0 (by decide)).1,
   by decide,
   (execute_nonpos_unbounded h5 0 (by decide)).2 (by decide)⟩

end PyssTesting
